import Mathlib

/-!
Verification of the terminalWeather rasterization and compositing core
(`radar.py`, class `RadarDisplay`).

The Python code is shallowly embedded: the two numpy arrays `char_map` /
`style_map` become a single total function from integer cell coordinates to a
pair of a glyph and a style tag; the per-cell loops become folds over integer
ranges; Python floats are modelled as exact rationals (all values appearing in
the relevant code paths are small and the divisions are by spans or by powers
of two, so double rounding does not change any of the discrete outcomes the
claims are about); Python `int(...)` is truncation toward zero; the `try`
blocks that catch `ZeroDivisionError` become explicit `Option` results.
-/

/-- The closed enumeration of style tags used by `radar.py`
(`map_background`, `map_water`, `map_water_fill`, `map_land`, `map_urban`,
`map_nature`, `map_road`, `map_label`, and the `radar_*` severity tiers). -/
inductive Style where
  | background
  | water
  | waterFill
  | land
  | urban
  | nature
  | road
  | label
  | radarVeryLight
  | radarLight
  | radarModerate
  | radarHeavy
  | radarExtreme
  deriving DecidableEq

/-- One grid cell: a display glyph together with a style tag
(the lockstep pair `char_map[y, x]`, `style_map[y, x]`). -/
abbrev Cell := Char × Style

/-- A grid of values indexed by (column, row); indices run over all of ℤ so
that out-of-viewport indices can be talked about. -/
abbrev GridA (α : Type) := ℤ → ℤ → α

abbrev Grid := GridA Cell

/-- Raw single-cell write `a[y, x] = v` (no bounds check: the source's own
guards are modelled at each call site). -/
def updG {α : Type} (g : GridA α) (x y : ℤ) (v : α) : GridA α :=
  fun a b => if a = x ∧ b = y then v else g a b

/-- `0 <= x < width and 0 <= y < height`: the viewport membership test used
throughout `radar.py`. -/
def inViewport (w h : ℕ) (x y : ℤ) : Prop :=
  0 ≤ x ∧ x < (w : ℤ) ∧ 0 ≤ y ∧ y < (h : ℤ)

instance (w h : ℕ) (x y : ℤ) : Decidable (inViewport w h x y) := by
  unfold inViewport; infer_instance

/-- `range(a, b)` over integers. -/
def intRange (a b : ℤ) : List ℤ :=
  (List.range (b - a).toNat).map (fun i : ℕ => a + (i : ℤ))

/-- Python `int(q)`: truncation toward zero. -/
def truncQ (q : ℚ) : ℤ :=
  if 0 ≤ q then ⌊q⌋ else ⌈q⌉

/-- The `tile_bounds` tuple `(lat1, lon1, lat2, lon2)`; per `update_radar`,
`lat1` is the north latitude, `lat2` the south, `lon1` the west longitude and
`lon2` the east. -/
structure TileBounds where
  lat1 : ℚ
  lon1 : ℚ
  lat2 : ℚ
  lon2 : ℚ

/-- `RadarDisplay._project_coords`.  With `tile_bounds` given it computes
`x = int(width/2 + ((lon - center_lon) / (lon2 - lon1)) * width)`,
`y = int(height/2 + ((center_lat - lat) / (lat1 - lat2)) * height)` and, when
`zoom != 11`, rescales the offset from the viewport center by
`zoom_factor = 2 ** (11 - zoom)`.  Without `tile_bounds` it scales by
`width / (0.1 * 2 ** (11 - zoom))`.  A zero bounds span raises
`ZeroDivisionError` in Python, caught by the surrounding `try` which returns
`None`; this is modelled by the explicit degeneracy test. -/
def projectCoords (zoom : ℤ) (lat lon clat clon : ℚ) (tb : Option TileBounds)
    (w h : ℕ) : Option (ℤ × ℤ) :=
  match tb with
  | some b =>
    if b.lon2 - b.lon1 = 0 ∨ b.lat1 - b.lat2 = 0 then none
    else
      let x := truncQ ((w : ℚ) / 2 + ((lon - clon) / (b.lon2 - b.lon1)) * (w : ℚ))
      let y := truncQ ((h : ℚ) / 2 + ((clat - lat) / (b.lat1 - b.lat2)) * (h : ℚ))
      if zoom ≠ 11 then
        let zoomFactor : ℚ := (2 : ℚ) ^ (11 - zoom)
        let dx := x - (w : ℤ) / 2
        let dy := y - (h : ℤ) / 2
        some ((w : ℤ) / 2 + truncQ ((dx : ℚ) / zoomFactor),
              (h : ℤ) / 2 + truncQ ((dy : ℚ) / zoomFactor))
      else
        some (x, y)
  | none =>
    let baseDegrees : ℚ := 1 / 10
    let degreesPerTile : ℚ := baseDegrees * (2 : ℚ) ^ (11 - zoom)
    let scale : ℚ := (w : ℚ) / degreesPerTile
    some ((w : ℤ) / 2 + truncQ ((lon - clon) * scale),
          (h : ℤ) / 2 - truncQ ((lat - clat) * scale))

/-- `RadarDisplay._project_coords_list`: project every coordinate, silently
dropping `None` results.  As in the source, the list path never passes
`tile_bounds`. -/
def projectCoordsList (zoom : ℤ) (coords : List (ℚ × ℚ)) (clat clon : ℚ)
    (w h : ℕ) : List (ℤ × ℤ) :=
  coords.foldr
    (fun c acc =>
      match projectCoords zoom c.1 c.2 clat clon none w h with
      | some p => p :: acc
      | none => acc)
    []

/-- Nested `for y in ys: for x in xs:` loop over a grid, y outer as in the
source. -/
def rectFold {α : Type} (xs ys : List ℤ) (f : GridA α → ℤ → ℤ → GridA α)
    (g : GridA α) : GridA α :=
  ys.foldl (fun acc y => xs.foldl (fun acc2 x => f acc2 x y) acc) g

/-- A loop body that touches only the visited cell, transforming it by `F`
as a function of the coordinates and the cell's current value. -/
def CellLocal {α : Type} (f : GridA α → ℤ → ℤ → GridA α)
    (F : ℤ → ℤ → α → α) : Prop :=
  ∀ g x y, f g x y = fun a b => if a = x ∧ b = y then F x y (g x y) else g a b

/-- One iteration of the ray-casting loop of `RadarDisplay._point_in_polygon`:
`(polygon[i][1] > y) != (polygon[j][1] > y) and
 x < (polygon[j][0]-polygon[i][0]) * (y-polygon[i][1]) /
     (polygon[j][1]-polygon[i][1]) + polygon[i][0]`.
Projected vertices are integers; the Python float division is modelled
exactly in ℚ (the guard makes the divisor nonzero). -/
def pipToggle (x y : ℤ) (p q : ℤ × ℤ) : Bool :=
  decide ((y < p.2) ≠ (y < q.2)) &&
    decide ((x : ℚ) <
      ((q.1 - p.1 : ℤ) : ℚ) * ((y - p.2 : ℤ) : ℚ) / ((q.2 - p.2 : ℤ) : ℚ) +
        ((p.1 : ℤ) : ℚ))

/-- `RadarDisplay._point_in_polygon`: ray casting; rings with fewer than 3
points are rejected.  The loop state is `(inside, j)` with `j` starting at
`len(polygon) - 1`. -/
def pointInPolygon (x y : ℤ) (poly : List (ℤ × ℤ)) : Bool :=
  if poly.length < 3 then false
  else
    ((List.range poly.length).foldl
      (fun st i =>
        (if pipToggle x y (poly.getD i (0, 0)) (poly.getD st.2 (0, 0))
         then !st.1 else st.1, i))
      (false, poly.length - 1)).1

def listMin (l : List ℤ) : ℤ := l.foldl min (l.headD 0)

def listMax (l : List ℤ) : ℤ := l.foldl max (l.headD 0)

/-- The bounding-box polygon fill used by the water pass and the land-cutout
pass of `_process_overpass_features` (the passes are identical up to the glyph
and style written).  `min_x = max(0, min(xs))`, `max_x = min(width, max(xs)+1)`
and similarly for y; each cell in the clamped box is written when the
ray-casting test hits, after per-cell bounds guards (`continue` in the
source). -/
def fillArea (g : Grid) (w h : ℕ) (poly : List (ℤ × ℤ)) (ch : Char)
    (st : Style) : Grid :=
  if 3 ≤ poly.length then
    let minX := max 0 (listMin (poly.map Prod.fst))
    let maxX := min (w : ℤ) (listMax (poly.map Prod.fst) + 1)
    let minY := max 0 (listMin (poly.map Prod.snd))
    let maxY := min (h : ℤ) (listMax (poly.map Prod.snd) + 1)
    rectFold (intRange minX maxX) (intRange minY maxY)
      (fun g2 x y =>
        if y < 0 ∨ (h : ℤ) ≤ y then g2
        else if x < 0 ∨ (w : ℤ) ≤ x then g2
        else if pointInPolygon x y poly then updG g2 x y (ch, st) else g2)
      g
  else g

/-- The fourth pass of `_process_overpass_features` (urban / nature area
fill): same membership test but scanning the whole viewport
(`for y in range(height): for x in range(width)`), no bounding box. -/
def fillAreaFull (g : Grid) (w h : ℕ) (poly : List (ℤ × ℤ)) (ch : Char)
    (st : Style) : Grid :=
  if 3 ≤ poly.length then
    rectFold (intRange 0 (w : ℤ)) (intRange 0 (h : ℤ))
      (fun g2 x y =>
        if pointInPolygon x y poly then updG g2 x y (ch, st) else g2)
      g
  else g

/-- The per-feature body of the first (water) pass: project the geographic
ring (the source's `_project_coords_list`, which does not pass
`tile_bounds`), then fill with `'~'` / `map_water_fill` when at least three
points survive projection. -/
def processWaterFeature (g : Grid) (zoom : ℤ) (coords : List (ℚ × ℚ))
    (clat clon : ℚ) (w h : ℕ) : Grid :=
  fillArea g w h (projectCoordsList zoom coords clat clon w h) '~' Style.waterFill

/-- Severity bucketing from `RadarDisplay.render`:
`'very_light' if val <= 0.08 else 'light' if val <= 0.15 else 'moderate' if
val <= 0.3 else 'heavy' if val <= 0.6 else 'extreme'` (only reached when
`val > 0.01`). -/
def radarTier (v : ℚ) : Style :=
  if v ≤ 8 / 100 then Style.radarVeryLight
  else if v ≤ 15 / 100 then Style.radarLight
  else if v ≤ 3 / 10 then Style.radarModerate
  else if v ≤ 6 / 10 then Style.radarHeavy
  else Style.radarExtreme

/-- The mutable widget state seen by `RadarDisplay.render`: the stored
feature layers (`self.road_map` / `self.style_map`) and the working copy
created by `np.copy` (`display_map` / `display_style`). -/
structure RenderState where
  roadMap : Grid
  display : Grid

/-- The three compositing passes of `RadarDisplay.render` (lines 798-829):
pass 1 skips cells whose current display style is `map_label` or `map_road`
and otherwise overwrites the style (glyph untouched) with a `radar_*` tier
when the resampled intensity exceeds `0.01`; passes 2 and 3 re-assert glyph
and style from the stored layers at cells whose stored style is `map_road`
resp. `map_label`.  Only the display copy is written; the stored layers are
only read. -/
def renderPasses (radar : ℤ → ℤ → ℚ) (w h : ℕ) (s : RenderState) : RenderState :=
  let d1 := rectFold (intRange 0 (w : ℤ)) (intRange 0 (h : ℤ))
    (fun g x y =>
      if (g x y).2 = Style.label ∨ (g x y).2 = Style.road then g
      else if 1 / 100 < radar x y then
        updG g x y ((g x y).1, radarTier (radar x y))
      else g)
    s.display
  let d2 := rectFold (intRange 0 (w : ℤ)) (intRange 0 (h : ℤ))
    (fun g x y =>
      if (s.roadMap x y).2 = Style.road then
        updG g x y ((s.roadMap x y).1, Style.road)
      else g)
    d1
  let d3 := rectFold (intRange 0 (w : ℤ)) (intRange 0 (h : ℤ))
    (fun g x y =>
      if (s.roadMap x y).2 = Style.label then
        updG g x y ((s.roadMap x y).1, Style.label)
      else g)
    d2
  { roadMap := s.roadMap, display := d3 }

/-- `RadarDisplay.render`: make the working copies of the stored layers and
run the three compositing passes; the composited display grid is the
output. -/
def renderGrid (store : Grid) (radar : ℤ → ℤ → ℚ) (w h : ℕ) : Grid :=
  (renderPasses radar w h { roadMap := store, display := store }).display

/-- Orientation-sensitive glyph choice of `_draw_line_segment`: with
geographic deltas, `'|'` when `abs(d_lon) < abs(d_lat) * 0.7`, else the
feature's default glyph. -/
def lineChar (ch : Char) (geo : Option (ℚ × ℚ × ℚ × ℚ)) : Char :=
  match geo with
  | none => ch
  | some (la1, lo1, la2, lo2) =>
    if |lo2 - lo1| < |la2 - la1| * (7 / 10) then '|' else ch

/-- Cohen-Sutherland outcode (`compute_code` in `_draw_line_segment`):
bit 1 left (`x < 0`), bit 2 right (`x >= width`), bit 4 top (`y < 0`),
bit 8 bottom (`y >= height`). -/
def computeCode (w h : ℕ) (x y : ℤ) : ℕ :=
  ((if x < 0 then 1 else 0) ||| (if (w : ℤ) ≤ x then 2 else 0)) |||
    ((if y < 0 then 4 else 0) ||| (if (h : ℤ) ≤ y then 8 else 0))

/-- The clipping `while True:` loop of `_draw_line_segment`, fuelled (the
Python loop runs until both endpoints are inside or the segment is rejected;
exhausted fuel is mapped to rejection, which draws nothing, exactly like a
rejected segment). -/
def clipLoop (w h : ℕ) : ℕ → ℤ → ℤ → ℤ → ℤ → Option (ℤ × ℤ × ℤ × ℤ)
  | 0, _, _, _, _ => none
  | fuel + 1, x1, y1, x2, y2 =>
    let c1 := computeCode w h x1 y1
    let c2 := computeCode w h x2 y2
    if c1 ||| c2 = 0 then some (x1, y1, x2, y2)
    else if c1 &&& c2 ≠ 0 then none
    else
      let c := if c1 ≠ 0 then c1 else c2
      let nxy : ℤ × ℤ :=
        if c &&& 1 ≠ 0 then
          (0, truncQ ((y1 : ℚ) + ((y2 - y1 : ℤ) : ℚ) * ((0 - x1 : ℤ) : ℚ) /
            ((x2 - x1 : ℤ) : ℚ)))
        else if c &&& 2 ≠ 0 then
          ((w : ℤ) - 1, truncQ ((y1 : ℚ) + ((y2 - y1 : ℤ) : ℚ) *
            (((w : ℤ) - 1 - x1 : ℤ) : ℚ) / ((x2 - x1 : ℤ) : ℚ)))
        else if c &&& 4 ≠ 0 then
          (truncQ ((x1 : ℚ) + ((x2 - x1 : ℤ) : ℚ) * ((0 - y1 : ℤ) : ℚ) /
            ((y2 - y1 : ℤ) : ℚ)), 0)
        else
          (truncQ ((x1 : ℚ) + ((x2 - x1 : ℤ) : ℚ) *
            (((h : ℤ) - 1 - y1 : ℤ) : ℚ) / ((y2 - y1 : ℤ) : ℚ)), (h : ℤ) - 1)
      if c = c1 then clipLoop w h fuel nxy.1 nxy.2 x2 y2
      else clipLoop w h fuel x1 y1 nxy.1 nxy.2

/-- The integer Bresenham walk of `_draw_line_segment` (after clipping):
swap to the major axis when steep, order by x, then step; every write is
bounds-guarded per cell. -/
def bresenham (g : Grid) (w h : ℕ) (px1 py1 px2 py2 : ℤ) (lc : Char)
    (st : Style) : Grid :=
  let steep := |px2 - px1| < |py2 - py1|
  let sx1 := if steep then py1 else px1
  let sy1 := if steep then px1 else py1
  let sx2 := if steep then py2 else px2
  let sy2 := if steep then px2 else py2
  let ax := if sx1 > sx2 then sx2 else sx1
  let ay := if sx1 > sx2 then sy2 else sy1
  let bx := if sx1 > sx2 then sx1 else sx2
  let by2 := if sx1 > sx2 then sy1 else sy2
  let dx := bx - ax
  let dy := |by2 - ay|
  let yStep : ℤ := if ay < by2 then 1 else -1
  ((intRange ax (bx + 1)).foldl
    (fun s xx =>
      let g2 :=
        if steep then
          if 0 ≤ s.2.1 ∧ s.2.1 < (w : ℤ) ∧ 0 ≤ xx ∧ xx < (h : ℤ) then
            updG s.1 s.2.1 xx (lc, st)
          else s.1
        else
          if 0 ≤ xx ∧ xx < (w : ℤ) ∧ 0 ≤ s.2.1 ∧ s.2.1 < (h : ℤ) then
            updG s.1 xx s.2.1 (lc, st)
          else s.1
      let err2 := s.2.2 - dy
      if err2 < 0 then (g2, s.2.1 + yStep, err2 + dx) else (g2, s.2.1, err2))
    (g, ay, dx / 2)).1

/-- `RadarDisplay._draw_line_segment`: choose the glyph, clip, then draw. -/
def drawLineSegment (g : Grid) (w h : ℕ) (x1 y1 x2 y2 : ℤ) (ch : Char)
    (st : Style) (geo : Option (ℚ × ℚ × ℚ × ℚ)) (fuel : ℕ) : Grid :=
  match clipLoop w h fuel x1 y1 x2 y2 with
  | none => g
  | some (a, b, c, d) => bresenham g w h a b c d (lineChar ch geo) st

/-- The label-drawing block of `_process_overpass_features` (lines 436-455):
skip when projection failed or the projected point is outside the viewport;
otherwise write the name's characters starting at
`max(0, x - len(name)//2)`, each write guarded per cell, with style
`map_label`. -/
def drawPlaceLabel (g : Grid) (w h : ℕ) (proj : Option (ℤ × ℤ))
    (name : List Char) : Grid :=
  match proj with
  | none => g
  | some (x, y) =>
    if 0 ≤ x ∧ x < (w : ℤ) ∧ 0 ≤ y ∧ y < (h : ℤ) then
      let tsx := max 0 (x - (name.length : ℤ) / 2)
      let tex := min (w : ℤ) (tsx + (name.length : ℤ))
      if tsx < (w : ℤ) ∧ 0 < tex then
        (List.range name.length).foldl
          (fun g2 (i : ℕ) =>
            let posX := tsx + (i : ℤ)
            if 0 ≤ posX ∧ posX < (w : ℤ) ∧ 0 ≤ y ∧ y < (h : ℤ) then
              updG g2 posX y (name.getD i ' ', Style.label)
            else g2)
          g
      else g
    else g

def neighborOffsets : List (ℤ × ℤ) := [(1, 0), (-1, 0), (0, 1), (0, -1)]

/-- The neighbour test of the fallback-seed search in
`_flood_fill_from_point` (it looks for `map_water` only). -/
def hasWaterNeighbor (g : Grid) (w h : ℕ) (x y : ℤ) : Bool :=
  neighborOffsets.any fun d =>
    decide (0 ≤ x + d.1 ∧ x + d.1 < (w : ℤ) ∧ 0 ≤ y + d.2 ∧ y + d.2 < (h : ℤ)) &&
      decide ((g (x + d.1) (y + d.2)).2 = Style.water)

/-- The boundary test of the fill loop in `_flood_fill_from_point`
(`map_water` or `map_water_fill`; out-of-viewport neighbours skipped). -/
def hasWaterBoundary (g : Grid) (w h : ℕ) (x y : ℤ) : Bool :=
  neighborOffsets.any fun d =>
    decide (0 ≤ x + d.1 ∧ x + d.1 < (w : ℤ) ∧ 0 ≤ y + d.2 ∧ y + d.2 < (h : ℤ)) &&
      decide ((g (x + d.1) (y + d.2)).2 = Style.water ∨
        (g (x + d.1) (y + d.2)).2 = Style.waterFill)

/-- The fallback-seed search of `_flood_fill_from_point` (rows scanned top to
bottom; the first background cell with a `map_water` 4-neighbour becomes the
new start; after each row the current start is re-tested for background,
which also accepts the untouched original start). -/
def findFillStart (g : Grid) (w h : ℕ) : List ℤ → ℤ → ℤ → Option (ℤ × ℤ)
  | [], _, _ => none
  | y :: rest, sx, sy =>
    match (intRange 0 (w : ℤ)).find? (fun x =>
        decide ((g x y).2 = Style.background) && hasWaterNeighbor g w h x y) with
    | some x => some (x, y)
    | none =>
      if (g sx sy).2 = Style.background then some (sx, sy)
      else findFillStart g w h rest sx sy

/-- The breadth-first fill loop of `_flood_fill_from_point`: pop the queue
head, skip seen / out-of-viewport / non-background / unbounded cells,
otherwise write `'~'` with the fill style, mark seen and enqueue in-viewport
unseen 4-neighbours.  Fuelled; each Python iteration consumes one unit. -/
def floodLoop (w h : ℕ) (st : Style) :
    ℕ → List (ℤ × ℤ) → List (ℤ × ℤ) → Grid → Grid
  | 0, _, _, g => g
  | _ + 1, [], _, g => g
  | fuel + 1, (x, y) :: rest, seen, g =>
    if (x, y) ∈ seen then floodLoop w h st fuel rest seen g
    else if ¬ (0 ≤ x ∧ x < (w : ℤ) ∧ 0 ≤ y ∧ y < (h : ℤ)) then
      floodLoop w h st fuel rest seen g
    else if (g x y).2 ≠ Style.background then floodLoop w h st fuel rest seen g
    else if ¬ hasWaterBoundary g w h x y = true then
      floodLoop w h st fuel rest seen g
    else
      let g2 := updG g x y ('~', st)
      let seen2 := (x, y) :: seen
      let nbrs := (neighborOffsets.map (fun d => (x + d.1, y + d.2))).filter
        (fun p => p ∉ seen2 ∧ 0 ≤ p.1 ∧ p.1 < (w : ℤ) ∧ 0 ≤ p.2 ∧ p.2 < (h : ℤ))
      floodLoop w h st fuel (rest ++ nbrs) seen2 g2

/-- `RadarDisplay._flood_fill_from_point`: validate or replace the seed,
then run the breadth-first fill. -/
def floodFillFromPoint (g : Grid) (w h : ℕ) (sx sy : ℤ) (st : Style)
    (fuel : ℕ) : Grid :=
  let startOpt :=
    if (0 ≤ sx ∧ sx < (w : ℤ) ∧ 0 ≤ sy ∧ sy < (h : ℤ)) ∧
        (g sx sy).2 = Style.background then
      some (sx, sy)
    else findFillStart g w h (intRange 0 (h : ℤ)) sx sy
  match startOpt with
  | none => g
  | some (x0, y0) => floodLoop w h st fuel [(x0, y0)] [] g

def waterStore : Grid := fun _ _ => ('~', Style.waterFill)

def roadBase : Grid := fun _ _ => ('=', Style.road)

/-- A feature grid in which a one-character place label has been drawn on top
of a road cell (labels are drawn last in `_process_overpass_features`, so the
cell's stored style is `map_label`). -/
def roadLabelStore : Grid := drawPlaceLabel roadBase 3 1 (some (1, 0)) ['A']

def backgroundStore : Grid := fun _ _ => (' ', Style.background)

/-- A concrete non-degenerate bounds box: north 1, west 0, south 0, east 1. -/
def cexBounds : TileBounds := ⟨1, 0, 0, 1⟩

/-- The invariant maintained by the flood-fill loop over the pre-fill grid
`g0`: every changed cell was background, now carries the fill glyph/style,
and has an (in-grid) water-styled 4-neighbour. -/
def FloodInv (g0 : Grid) (st : Style) (g : Grid) : Prop :=
  ∀ x y, g x y ≠ g0 x y →
    (g0 x y).2 = Style.background ∧ g x y = ('~', st) ∧
    ∃ d ∈ neighborOffsets, (g (x + d.1) (y + d.2)).2 = Style.water ∨
      (g (x + d.1) (y + d.2)).2 = Style.waterFill

/-- A 5×5 closed water polygon: ring of `map_water` cells around a 3×3
background interior. -/
def ringGrid : Grid := fun x y =>
  if (0 ≤ x ∧ x < 5 ∧ 0 ≤ y ∧ y < 5) ∧ (x = 0 ∨ x = 4 ∨ y = 0 ∨ y = 4) then
    ('~', Style.water)
  else (' ', Style.background)

theorem mem_intRange {a b x : ℤ} : x ∈ intRange a b ↔ a ≤ x ∧ x < b := by
  unfold intRange
  rw [List.mem_map]
  constructor
  · rintro ⟨i, hi, rfl⟩
    rw [List.mem_range] at hi
    omega
  · intro hx
    refine ⟨(x - a).toNat, ?_, ?_⟩
    · rw [List.mem_range]
      omega
    · omega

theorem nodup_intRange (a b : ℤ) : (intRange a b).Nodup := by
  unfold intRange
  refine List.Nodup.map ?_ (List.nodup_range _)
  intro i j hij
  simp only [add_right_inj, Nat.cast_inj] at hij
  exact hij

theorem rowFold_spec {α : Type} {f : GridA α → ℤ → ℤ → GridA α}
    {F : ℤ → ℤ → α → α} (hf : CellLocal f F) :
    ∀ (xs : List ℤ), xs.Nodup → ∀ (y0 : ℤ) (g : GridA α) (x y : ℤ),
      (xs.foldl (fun acc a => f acc a y0) g) x y =
        if x ∈ xs ∧ y = y0 then F x y0 (g x y0) else g x y := by
  intro xs
  induction xs with
  | nil =>
    intro _ y0 g x y
    simp
  | cons a as ih =>
    intro hnd y0 g x y
    rw [List.nodup_cons] at hnd
    simp only [List.foldl_cons]
    rw [ih hnd.2 y0 (f g a y0) x y]
    have hga : ∀ p q, (f g a y0) p q = if p = a ∧ q = y0 then F a y0 (g a y0) else g p q := by
      intro p q
      rw [hf g a y0]
    by_cases hy : y = y0
    · by_cases hxa : x = a
      · rw [hy, hxa]
        have hxs : a ∉ as := hnd.1
        rw [hga a y0]
        simp [hxs]
      · rw [hy, hga x y0]
        by_cases hxs : x ∈ as <;> simp [hxa, hxs]
    · rw [hga x y]
      simp [hy]

theorem rectFold_spec {α : Type} {f : GridA α → ℤ → ℤ → GridA α}
    {F : ℤ → ℤ → α → α} (hf : CellLocal f F) :
    ∀ (ys : List ℤ), ys.Nodup → ∀ (xs : List ℤ), xs.Nodup →
      ∀ (g : GridA α) (x y : ℤ),
      rectFold xs ys f g x y =
        if x ∈ xs ∧ y ∈ ys then F x y (g x y) else g x y := by
  intro ys
  induction ys with
  | nil =>
    intro _ xs _ g x y
    simp [rectFold]
  | cons b bs ih =>
    intro hnd xs hxs g x y
    rw [List.nodup_cons] at hnd
    have hrow := rowFold_spec hf xs hxs b g
    simp only [rectFold, List.foldl_cons]
    have ihb := ih hnd.2 xs hxs (xs.foldl (fun acc a => f acc a b) g) x y
    rw [show (bs.foldl (fun acc y0 => xs.foldl (fun acc2 x0 => f acc2 x0 y0) acc)
        (xs.foldl (fun acc a => f acc a b) g)) = rectFold xs bs f
        (xs.foldl (fun acc a => f acc a b) g) from rfl]
    rw [ihb]
    by_cases hyb : y = b
    · rw [hyb]
      have hybs : b ∉ bs := hnd.1
      rw [hrow x b]
      simp [hybs]
    · rw [hrow x y]
      simp [hyb]

/-- `foldl` preserves an invariant when every step taken on a list element
does. -/
theorem foldl_invariant_mem {σ β : Type} (P : σ → Prop) (f : σ → β → σ) :
    ∀ (l : List β) (s : σ), P s → (∀ t b, b ∈ l → P t → P (f t b)) →
      P (l.foldl f s) := by
  intro l
  induction l with
  | nil =>
    intro s h0 _
    exact h0
  | cons b bs ih =>
    intro s h0 hstep
    exact ih (f s b) (hstep s b (List.mem_cons_self b bs) h0)
      (fun t c hc ht => hstep t c (List.mem_cons_of_mem b hc) ht)

theorem cellLocal_of_guard {α : Type} (C : ℤ → ℤ → α → Prop)
    [inst : ∀ x y a, Decidable (C x y a)] (V : ℤ → ℤ → α → α) :
    CellLocal (fun g x y => if C x y (g x y) then updG g x y (V x y (g x y)) else g)
      (fun x y a => if C x y a then V x y a else a) := by
  intro g x y
  dsimp only
  by_cases hc : C x y (g x y)
  · rw [if_pos hc]
    funext a b
    by_cases h2 : a = x ∧ b = y
    · obtain ⟨rfl, rfl⟩ := h2
      simp [updG, hc]
    · simp [updG, h2]
  · rw [if_neg hc]
    funext a b
    by_cases h2 : a = x ∧ b = y
    · obtain ⟨rfl, rfl⟩ := h2
      simp [hc]
    · simp [h2]

/-- Pointwise description of the three compositing passes of
`RadarDisplay.render` on an arbitrary widget state. -/
theorem renderPasses_display (radar : ℤ → ℤ → ℚ) (w h : ℕ) (s : RenderState)
    (x y : ℤ) :
    (renderPasses radar w h s).display x y =
      if inViewport w h x y then
        if (s.roadMap x y).2 = Style.label then ((s.roadMap x y).1, Style.label)
        else if (s.roadMap x y).2 = Style.road then ((s.roadMap x y).1, Style.road)
        else if (s.display x y).2 = Style.label ∨ (s.display x y).2 = Style.road then
          s.display x y
        else if 1 / 100 < radar x y then
          ((s.display x y).1, radarTier (radar x y))
        else s.display x y
      else s.display x y := by
  have hstep1 : CellLocal
      (fun (g : Grid) (x y : ℤ) =>
        if (g x y).2 = Style.label ∨ (g x y).2 = Style.road then g
        else if 1 / 100 < radar x y then
          updG g x y ((g x y).1, radarTier (radar x y))
        else g)
      (fun (x y : ℤ) (a : Cell) =>
        if ¬(a.2 = Style.label ∨ a.2 = Style.road) ∧ 1 / 100 < radar x y
        then (a.1, radarTier (radar x y)) else a) := by
    have hg := cellLocal_of_guard
      (fun x y (a : Cell) => ¬(a.2 = Style.label ∨ a.2 = Style.road) ∧ 1 / 100 < radar x y)
      (fun x y (a : Cell) => (a.1, radarTier (radar x y)))
    intro g x0 y0
    rw [← hg g x0 y0]
    dsimp only
    by_cases h1 : (g x0 y0).2 = Style.label ∨ (g x0 y0).2 = Style.road
    · simp [h1]
    · by_cases h3 : 1 / 100 < radar x0 y0 <;> simp [h1, h3]
  have hstep2 : CellLocal
      (fun (g : Grid) (x y : ℤ) =>
        if (s.roadMap x y).2 = Style.road then
          updG g x y ((s.roadMap x y).1, Style.road)
        else g)
      (fun (x y : ℤ) (a : Cell) =>
        if (s.roadMap x y).2 = Style.road then
          ((s.roadMap x y).1, Style.road) else a) := by
    have hg := cellLocal_of_guard
      (fun x y (a : Cell) => (s.roadMap x y).2 = Style.road)
      (fun x y (a : Cell) => ((s.roadMap x y).1, Style.road))
    intro g x0 y0
    rw [← hg g x0 y0]
  have hstep3 : CellLocal
      (fun (g : Grid) (x y : ℤ) =>
        if (s.roadMap x y).2 = Style.label then
          updG g x y ((s.roadMap x y).1, Style.label)
        else g)
      (fun (x y : ℤ) (a : Cell) =>
        if (s.roadMap x y).2 = Style.label then
          ((s.roadMap x y).1, Style.label) else a) := by
    have hg := cellLocal_of_guard
      (fun x y (a : Cell) => (s.roadMap x y).2 = Style.label)
      (fun x y (a : Cell) => ((s.roadMap x y).1, Style.label))
    intro g x0 y0
    rw [← hg g x0 y0]
  have hmem : (x ∈ intRange 0 (w : ℤ) ∧ y ∈ intRange 0 (h : ℤ)) ↔ inViewport w h x y := by
    rw [mem_intRange, mem_intRange]
    unfold inViewport
    omega
  simp only [renderPasses]
  rw [rectFold_spec hstep3 (intRange 0 (h : ℤ)) (nodup_intRange _ _)
    (intRange 0 (w : ℤ)) (nodup_intRange _ _)]
  rw [rectFold_spec hstep2 (intRange 0 (h : ℤ)) (nodup_intRange _ _)
    (intRange 0 (w : ℤ)) (nodup_intRange _ _)]
  rw [rectFold_spec hstep1 (intRange 0 (h : ℤ)) (nodup_intRange _ _)
    (intRange 0 (w : ℤ)) (nodup_intRange _ _)]
  by_cases hv : inViewport w h x y
  · have hm : x ∈ intRange 0 (w : ℤ) ∧ y ∈ intRange 0 (h : ℤ) := hmem.mpr hv
    rw [if_pos hm, if_pos hm, if_pos hm, if_pos hv]
    by_cases hl : (s.roadMap x y).2 = Style.label
    · have hr : ¬ (s.roadMap x y).2 = Style.road := by
        rw [hl]; intro hcon; cases hcon
      simp [hl, hr]
    · by_cases hr : (s.roadMap x y).2 = Style.road
      · simp [hl, hr]
      · by_cases hd : (s.display x y).2 = Style.label ∨ (s.display x y).2 = Style.road
        · simp [hl, hr, hd]
        · by_cases hq : 1 / 100 < radar x y <;> simp [hl, hr, hd, hq]
  · have hm : ¬ (x ∈ intRange 0 (w : ℤ) ∧ y ∈ intRange 0 (h : ℤ)) := by
      intro hc
      exact hv (hmem.mp hc)
    rw [if_neg hm, if_neg hm, if_neg hm, if_neg hv]

/-- Pointwise description of `RadarDisplay.render`'s composited output when
the working copy starts from the stored layers (as in the source). -/
theorem renderGrid_cell (store : Grid) (radar : ℤ → ℤ → ℚ) (w h : ℕ)
    (x y : ℤ) :
    renderGrid store radar w h x y =
      if inViewport w h x y then
        if (store x y).2 = Style.label ∨ (store x y).2 = Style.road then store x y
        else if 1 / 100 < radar x y then ((store x y).1, radarTier (radar x y))
        else store x y
      else store x y := by
  unfold renderGrid
  rw [renderPasses_display]
  dsimp only
  by_cases hv : inViewport w h x y
  · rw [if_pos hv, if_pos hv]
    by_cases hl : (store x y).2 = Style.label
    · rw [if_pos hl, if_pos (Or.inl hl), ← hl]
    · rw [if_neg hl]
      by_cases hr : (store x y).2 = Style.road
      · rw [if_pos hr, if_pos (Or.inr hr), ← hr]
      · rw [if_neg hr, if_neg (by intro hc; rcases hc with hc | hc; exact hl hc; exact hr hc)]
  · rw [if_neg hv, if_neg hv]

/-- C1, counterexample: compositing does NOT leave water cells in place.  On a
1×1 viewport whose only cell is styled `map_water_fill`, a resampled
precipitation intensity of 0.5 replaces the style with the `radar_heavy`
severity tier (the first compositing pass only protects `map_label` and
`map_road`, `radar.py` lines 801-804). -/
theorem radarTier_half : radarTier (1 / 2) = Style.radarHeavy := by
  unfold radarTier
  rw [if_neg (by norm_num), if_neg (by norm_num), if_neg (by norm_num),
    if_pos (by norm_num)]

theorem water_cell_overwritten_by_radar_cex :
    (renderGrid waterStore (fun _ _ => 1 / 2) 1 1 0 0).2 = Style.radarHeavy ∧
    (waterStore 0 0).2 = Style.waterFill ∧
    Style.radarHeavy ≠ Style.waterFill := by
  refine ⟨?_, rfl, by decide⟩
  rw [renderGrid_cell, if_pos (by decide : inViewport 1 1 0 0),
    if_neg (by decide :
      ¬((waterStore 0 0).2 = Style.label ∨ (waterStore 0 0).2 = Style.road)),
    if_pos (by norm_num :
      (1 : ℚ) / 100 < (fun _ _ => (1 : ℚ) / 2) (0 : ℤ) (0 : ℤ))]
  show radarTier ((1 : ℚ) / 2) = Style.radarHeavy
  exact radarTier_half

/-- C1 (amended): a cell styled `map_water` or `map_water_fill` is NOT
protected by compositing: it keeps its style only when the resampled
intensity is at most the 0.01 visibility threshold, and is replaced by the
severity tier of that intensity otherwise (glyph untouched). -/
theorem render_water_cell_amended (store : Grid) (radar : ℤ → ℤ → ℚ)
    (w h : ℕ) (x y : ℤ) (hv : inViewport w h x y)
    (hw : (store x y).2 = Style.water ∨ (store x y).2 = Style.waterFill) :
    renderGrid store radar w h x y =
      if 1 / 100 < radar x y then ((store x y).1, radarTier (radar x y))
      else store x y := by
  rw [renderGrid_cell, if_pos hv]
  have hnl : ¬((store x y).2 = Style.label ∨ (store x y).2 = Style.road) := by
    rcases hw with hw | hw <;> rw [hw] <;> rintro (hc | hc) <;> cases hc
  rw [if_neg hnl]

theorem render_water_cell_amended_witness :
    renderGrid waterStore (fun _ _ => 9 / 10) 2 2 1 1 =
      (if 1 / 100 < ((fun _ _ => (9 : ℚ) / 10) (1 : ℤ) (1 : ℤ)) then
        ((waterStore 1 1).1, radarTier ((fun _ _ => (9 : ℚ) / 10) (1 : ℤ) (1 : ℤ)))
      else waterStore 1 1) :=
  render_water_cell_amended waterStore (fun _ _ => 9 / 10) 2 2 1 1 (by decide)
    (by decide)

/-- C2: a cell whose stored feature style is `map_road` or `map_label` is
returned by compositing with exactly its stored style and glyph, whatever the
raster holds there (passes 2 and 3 of `render` re-assert them and pass 1
skips them). -/
theorem render_preserves_road_label (store : Grid) (radar : ℤ → ℤ → ℚ)
    (w h : ℕ) (x y : ℤ) (hv : inViewport w h x y)
    (hs : (store x y).2 = Style.road ∨ (store x y).2 = Style.label) :
    renderGrid store radar w h x y = store x y := by
  rw [renderGrid_cell, if_pos hv, if_pos hs.symm]

theorem render_preserves_road_label_witness :
    renderGrid roadLabelStore (fun _ _ => 1 / 2) 3 1 1 0 = roadLabelStore 1 0 ∧
    (roadLabelStore 1 0).2 = Style.label := by
  refine ⟨render_preserves_road_label roadLabelStore (fun _ _ => 1 / 2) 3 1 1 0
    (by decide) ?_, by decide⟩
  decide

/-- C6: at a cell not styled `map_road` or `map_label`, compositing keeps the
prior cell when the resampled intensity is at most 0.01 and otherwise
replaces the style with the severity tier given by the breakpoints
0.08 / 0.15 / 0.3 / 0.6; intensity 0.5 falls in the `radar_heavy` tier. -/
theorem render_tier_bucketing (store : Grid) (radar : ℤ → ℤ → ℚ) (w h : ℕ)
    (x y : ℤ) (hv : inViewport w h x y)
    (hr : ¬ (store x y).2 = Style.road) (hl : ¬ (store x y).2 = Style.label) :
    (radar x y ≤ 1 / 100 → renderGrid store radar w h x y = store x y) ∧
    (1 / 100 < radar x y →
      renderGrid store radar w h x y = ((store x y).1, radarTier (radar x y))) ∧
    radarTier (1 / 2) = Style.radarHeavy := by
  have hno : ¬((store x y).2 = Style.label ∨ (store x y).2 = Style.road) := by
    rintro (hc | hc)
    · exact hl hc
    · exact hr hc
  rw [renderGrid_cell, if_pos hv, if_neg hno]
  refine ⟨?_, ?_, radarTier_half⟩
  · intro hle
    rw [if_neg (by exact fun hgt => absurd hle (not_le.mpr hgt))]
  · intro hgt
    rw [if_pos hgt]

theorem render_tier_bucketing_witness :
    ((fun _ _ => (1 : ℚ) / 2) (0 : ℤ) (0 : ℤ) ≤ 1 / 100 →
      renderGrid backgroundStore (fun _ _ => 1 / 2) 1 1 0 0 = backgroundStore 0 0) ∧
    (1 / 100 < ((fun _ _ => (1 : ℚ) / 2) (0 : ℤ) (0 : ℤ)) →
      renderGrid backgroundStore (fun _ _ => 1 / 2) 1 1 0 0 =
        ((backgroundStore 0 0).1, radarTier ((fun _ _ => (1 : ℚ) / 2) (0 : ℤ) (0 : ℤ)))) ∧
    radarTier (1 / 2) = Style.radarHeavy :=
  render_tier_bucketing backgroundStore (fun _ _ => 1 / 2) 1 1 0 0 (by decide)
    (by decide) (by decide)

/-- C10: `render` composites into `np.copy`-made working grids; the stored
feature layers are only read, so they survive a render unchanged and a second
render from the surviving state yields the identical output. -/
theorem render_leaves_stored_layers (store : Grid) (radar : ℤ → ℤ → ℚ)
    (w h : ℕ) :
    (renderPasses radar w h { roadMap := store, display := store }).roadMap
        = store ∧
    renderGrid
        ((renderPasses radar w h { roadMap := store, display := store }).roadMap)
        radar w h
      = renderGrid store radar w h :=
  ⟨rfl, rfl⟩

/-- C9: a ring with fewer than 3 points is rejected by the ray-casting test
(false for every probe point) and the bounding-box fill pass is a complete
no-op on both the glyph and style layers. -/
theorem small_ring_noop (poly : List (ℤ × ℤ)) (hp : poly.length < 3) :
    (∀ x y : ℤ, pointInPolygon x y poly = false) ∧
    (∀ (g : Grid) (w h : ℕ) (ch : Char) (st : Style),
      fillArea g w h poly ch st = g) := by
  constructor
  · intro x y
    unfold pointInPolygon
    rw [if_pos hp]
  · intro g w h ch st
    unfold fillArea
    rw [if_neg (by omega)]

theorem small_ring_noop_witness :
    pointInPolygon 0 0 [((0 : ℤ), (0 : ℤ)), (1, 1)] = false ∧
    fillArea backgroundStore 4 4 [((0 : ℤ), (0 : ℤ)), (1, 1)] '~'
      Style.waterFill = backgroundStore :=
  ⟨(small_ring_noop [((0 : ℤ), (0 : ℤ)), (1, 1)] (by decide)).1 0 0,
   (small_ring_noop [((0 : ℤ), (0 : ℤ)), (1, 1)] (by decide)).2 backgroundStore
     4 4 '~' Style.waterFill⟩

/-- C8: degenerate bounds (zero longitude or latitude span) make
`_project_coords` return `None` (the `ZeroDivisionError` is caught) rather
than NaN/Inf, and the label-drawing caller skips the feature, leaving the
grid untouched. -/
theorem degenerate_bounds_project_none (zoom : ℤ) (lat lon clat clon : ℚ)
    (b : TileBounds) (w h : ℕ)
    (hdeg : b.lon2 - b.lon1 = 0 ∨ b.lat1 - b.lat2 = 0) :
    projectCoords zoom lat lon clat clon (some b) w h = none ∧
    (∀ (g : Grid) (name : List Char),
      drawPlaceLabel g w h (projectCoords zoom lat lon clat clon (some b) w h)
        name = g) := by
  have hn : projectCoords zoom lat lon clat clon (some b) w h = none := by
    simp only [projectCoords]
    rw [if_pos hdeg]
  refine ⟨hn, ?_⟩
  intro g name
  rw [hn]
  rfl

theorem degenerate_bounds_project_none_witness :
    projectCoords 11 0 0 0 0 (some ⟨0, 0, 0, 0⟩) 10 10 = none ∧
    drawPlaceLabel backgroundStore 10 10
      (projectCoords 11 0 0 0 0 (some ⟨0, 0, 0, 0⟩) 10 10) ['A']
      = backgroundStore := by
  have h := degenerate_bounds_project_none 11 0 0 0 0 ⟨0, 0, 0, 0⟩ 10 10
    (Or.inl (by norm_num))
  exact ⟨h.1, h.2 backgroundStore ['A']⟩

/-- C4, counterexample: the projector does not clamp to the viewport.  With
bounds N=1/S=0/W=0/E=1, center (0.5, 0.5), viewport 10×10 and zoom 11, the
point lat 0.5 / lon 5 projects to (50, 5), far outside [0,10)×[0,10). -/
theorem project_no_clamp_cex :
    projectCoords 11 (1 / 2) 5 (1 / 2) (1 / 2) (some cexBounds) 10 10 =
      some (50, 5) ∧ ¬ inViewport 10 10 50 5 := by
  refine ⟨?_, by decide⟩
  simp only [projectCoords, cexBounds]
  rw [if_neg (by norm_num), if_neg (by simp)]
  have hx : ((10 : ℕ) : ℚ) / 2 + (((5 : ℚ) - 1 / 2) / ((1 : ℚ) - 0)) * ((10 : ℕ) : ℚ)
      = 50 := by norm_num
  have hy : ((10 : ℕ) : ℚ) / 2 + (((1 : ℚ) / 2 - 1 / 2) / ((1 : ℚ) - 0)) * ((10 : ℕ) : ℚ)
      = 5 := by norm_num
  rw [hx, hy]
  unfold truncQ
  rw [if_pos (by norm_num), if_pos (by norm_num)]
  norm_num

/-- C4 (amended): at the reference zoom 11, with non-degenerate bounds, the
projector returns exactly the spec's formulas truncated to integers
(`x = int(width/2 + ((lon - center_lon)/(east - west)) * width)`,
`y = int(height/2 + ((center_lat - lat)/(north - south)) * height)`), with NO
clamping: the result may lie outside the viewport and callers bounds-check
instead. -/
theorem project_formula_amended (lat lon clat clon : ℚ) (b : TileBounds)
    (w h : ℕ) (hlon : b.lon2 - b.lon1 ≠ 0) (hlat : b.lat1 - b.lat2 ≠ 0) :
    projectCoords 11 lat lon clat clon (some b) w h =
      some (truncQ ((w : ℚ) / 2 + ((lon - clon) / (b.lon2 - b.lon1)) * (w : ℚ)),
            truncQ ((h : ℚ) / 2 + ((clat - lat) / (b.lat1 - b.lat2)) * (h : ℚ))) := by
  simp only [projectCoords]
  rw [if_neg (by tauto), if_neg (by simp)]

theorem project_formula_amended_witness :
    projectCoords 11 (1 / 2) 5 (1 / 2) (1 / 2) (some cexBounds) 10 10 =
      some (truncQ (((10 : ℕ) : ℚ) / 2 +
              (((5 : ℚ) - 1 / 2) / (cexBounds.lon2 - cexBounds.lon1)) * ((10 : ℕ) : ℚ)),
            truncQ (((10 : ℕ) : ℚ) / 2 +
              (((1 : ℚ) / 2 - 1 / 2) / (cexBounds.lat1 - cexBounds.lat2)) * ((10 : ℕ) : ℚ))) :=
  project_formula_amended (1 / 2) 5 (1 / 2) (1 / 2) cexBounds 10 10
    (by norm_num [cexBounds]) (by norm_num [cexBounds])

theorem cexProjX :
    truncQ (((10 : ℕ) : ℚ) / 2 +
      (((8 : ℚ) / 10 - 1 / 2) / ((1 : ℚ) - 0)) * ((10 : ℕ) : ℚ)) = 8 := by
  have h : ((10 : ℕ) : ℚ) / 2 +
      (((8 : ℚ) / 10 - 1 / 2) / ((1 : ℚ) - 0)) * ((10 : ℕ) : ℚ) = 8 := by norm_num
  rw [h]
  unfold truncQ
  rw [if_pos (by norm_num)]
  norm_num

theorem cexProjY :
    truncQ (((10 : ℕ) : ℚ) / 2 +
      (((1 : ℚ) / 2 - 1 / 2) / ((1 : ℚ) - 0)) * ((10 : ℕ) : ℚ)) = 5 := by
  have h : ((10 : ℕ) : ℚ) / 2 +
      (((1 : ℚ) / 2 - 1 / 2) / ((1 : ℚ) - 0)) * ((10 : ℕ) : ℚ) = 5 := by norm_num
  rw [h]
  unfold truncQ
  rw [if_pos (by norm_num)]
  norm_num

theorem projectCexAt11 :
    projectCoords 11 (1 / 2) (8 / 10) (1 / 2) (1 / 2) (some cexBounds) 10 10 =
      some (8, 5) := by
  simp only [projectCoords, cexBounds]
  rw [if_neg (by norm_num), if_neg (by simp)]
  rw [cexProjX, cexProjY]

theorem projectCexAt10 :
    projectCoords 10 (1 / 2) (8 / 10) (1 / 2) (1 / 2) (some cexBounds) 10 10 =
      some (6, 5) := by
  simp only [projectCoords, cexBounds]
  rw [if_neg (by norm_num), if_pos (by decide)]
  rw [cexProjX, cexProjY]
  have h1 : (8 - ((10 : ℕ) : ℤ) / 2 : ℤ) = 3 := by norm_num
  have h2 : (5 - ((10 : ℕ) : ℤ) / 2 : ℤ) = 0 := by norm_num
  rw [h1, h2]
  have h3 : ((3 : ℤ) : ℚ) / (2 : ℚ) ^ ((11 : ℤ) - 10) = 3 / 2 := by norm_num
  have h4 : ((0 : ℤ) : ℚ) / (2 : ℚ) ^ ((11 : ℤ) - 10) = 0 := by norm_num
  rw [h3, h4]
  have h5 : truncQ ((3 : ℚ) / 2) = 1 := by
    unfold truncQ
    rw [if_pos (by norm_num)]
    norm_num
  have h6 : truncQ (0 : ℚ) = 0 := by
    unfold truncQ
    rw [if_pos (by norm_num)]
    norm_num
  rw [h5, h6]
  norm_num

/-- C7, counterexample: the same point (lat 0.5, lon 0.8, bounds
N=1/S=0/W=0/E=1, center (0.5, 0.5), 10×10 viewport) projects with a
horizontal offset of 3 from the viewport center at zoom 11 but 1 at zoom 10
(`int(3 / 2) = 1`): the zoom-11 offset is not exactly twice the zoom-10
offset. -/
theorem zoom_offset_doubling_cex :
    projectCoords 11 (1 / 2) (8 / 10) (1 / 2) (1 / 2) (some cexBounds) 10 10 =
      some (8, 5) ∧
    projectCoords 10 (1 / 2) (8 / 10) (1 / 2) (1 / 2) (some cexBounds) 10 10 =
      some (6, 5) ∧
    ¬ ((8 : ℤ) - (10 : ℤ) / 2 = 2 * (6 - (10 : ℤ) / 2)) :=
  ⟨projectCexAt11, projectCexAt10, by decide⟩

/-- C7 (amended): for any point and non-degenerate bounds, the offset from
the viewport center at zoom 10 equals the zoom-11 offset divided by two and
truncated toward zero (`int(dx / 2)`); it is exactly half — so the zoom-11
offset is exactly twice it — only when the zoom-11 offset is even. -/
theorem zoom_offset_halving_amended (lat lon clat clon : ℚ) (b : TileBounds)
    (w h : ℕ) (p11 p10 : ℤ × ℤ)
    (h11 : projectCoords 11 lat lon clat clon (some b) w h = some p11)
    (h10 : projectCoords 10 lat lon clat clon (some b) w h = some p10) :
    p10.1 - (w : ℤ) / 2 = truncQ (((p11.1 - (w : ℤ) / 2 : ℤ) : ℚ) / 2) ∧
    p10.2 - (h : ℤ) / 2 = truncQ (((p11.2 - (h : ℤ) / 2 : ℤ) : ℚ) / 2) := by
  by_cases hdeg : b.lon2 - b.lon1 = 0 ∨ b.lat1 - b.lat2 = 0
  · rw [show projectCoords 11 lat lon clat clon (some b) w h = none by
      simp only [projectCoords]; rw [if_pos hdeg]] at h11
    cases h11
  · simp only [projectCoords] at h11 h10
    rw [if_neg hdeg, if_neg (by simp)] at h11
    rw [if_neg hdeg, if_pos (by decide)] at h10
    injection h11 with h11
    injection h10 with h10
    subst h11
    subst h10
    have hzf : (2 : ℚ) ^ ((11 : ℤ) - 10) = 2 := by norm_num
    rw [hzf]
    dsimp only
    constructor <;> omega

theorem zoom_offset_halving_amended_witness :
    ((6 : ℤ), (5 : ℤ)).1 - ((10 : ℕ) : ℤ) / 2 =
      truncQ (((((8 : ℤ), (5 : ℤ)).1 - ((10 : ℕ) : ℤ) / 2 : ℤ) : ℚ) / 2) ∧
    ((6 : ℤ), (5 : ℤ)).2 - ((10 : ℕ) : ℤ) / 2 =
      truncQ (((((8 : ℤ), (5 : ℤ)).2 - ((10 : ℕ) : ℤ) / 2 : ℤ) : ℚ) / 2) :=
  zoom_offset_halving_amended (1 / 2) (8 / 10) (1 / 2) (1 / 2) cexBounds 10 10
    (8, 5) (6, 5) projectCexAt11 projectCexAt10

theorem updG_self {α : Type} (g : GridA α) (x y : ℤ) (v : α) :
    updG g x y v x y = v := by
  simp [updG]

theorem updG_other {α : Type} (g : GridA α) (x y a b : ℤ) (v : α)
    (hne : ¬(a = x ∧ b = y)) : updG g x y v a b = g a b := by
  simp [updG, hne]

theorem neighbor_ne (x y : ℤ) (d : ℤ × ℤ) (hd : d ∈ neighborOffsets) :
    ¬(x + d.1 = x ∧ y + d.2 = y) := by
  simp only [neighborOffsets, List.mem_cons, List.not_mem_nil, or_false] at hd
  rcases hd with rfl | rfl | rfl | rfl <;> simp

theorem hasWaterBoundary_spec (g : Grid) (w h : ℕ) (x y : ℤ)
    (hb : hasWaterBoundary g w h x y = true) :
    ∃ d ∈ neighborOffsets, (g (x + d.1) (y + d.2)).2 = Style.water ∨
      (g (x + d.1) (y + d.2)).2 = Style.waterFill := by
  unfold hasWaterBoundary at hb
  rw [List.any_eq_true] at hb
  obtain ⟨d, hd, hdp⟩ := hb
  rw [Bool.and_eq_true, decide_eq_true_eq, decide_eq_true_eq] at hdp
  exact ⟨d, hd, hdp.2⟩

theorem floodInv_step (g0 : Grid) (st : Style) (g : Grid) (w h : ℕ)
    (x0 y0 : ℤ) (hinv : FloodInv g0 st g)
    (hbg : (g x0 y0).2 = Style.background)
    (hwb : hasWaterBoundary g w h x0 y0 = true) :
    FloodInv g0 st (updG g x0 y0 ('~', st)) := by
  intro x y hne
  by_cases hxy : x = x0 ∧ y = y0
  · obtain ⟨rfl, rfl⟩ := hxy
    rw [updG_self] at hne ⊢
    refine ⟨?_, rfl, ?_⟩
    · by_cases heq : g x y = g0 x y
      · rw [← heq]
        exact hbg
      · exact (hinv x y heq).1
    · obtain ⟨d, hd, hw⟩ := hasWaterBoundary_spec g w h x y hwb
      refine ⟨d, hd, ?_⟩
      rw [updG_other g x y _ _ _ (neighbor_ne x y d hd)]
      exact hw
  · rw [updG_other g x0 y0 x y _ hxy] at hne ⊢
    obtain ⟨h1, h2, d, hd, hw⟩ := hinv x y hne
    refine ⟨h1, h2, d, hd, ?_⟩
    by_cases hm : x + d.1 = x0 ∧ y + d.2 = y0
    · rw [hm.1, hm.2] at hw
      rw [hbg] at hw
      rcases hw with hw | hw <;> cases hw
    · rw [updG_other g x0 y0 _ _ _ hm]
      exact hw

theorem floodLoop_inv (w h : ℕ) (st : Style) (g0 : Grid) :
    ∀ (fuel : ℕ) (q seen : List (ℤ × ℤ)) (g : Grid),
      FloodInv g0 st g → FloodInv g0 st (floodLoop w h st fuel q seen g) := by
  intro fuel
  induction fuel with
  | zero =>
    intro q seen g hg
    simpa [floodLoop] using hg
  | succ n ih =>
    intro q seen g hg
    cases q with
    | nil => simpa [floodLoop] using hg
    | cons p rest =>
      obtain ⟨x0, y0⟩ := p
      rw [floodLoop]
      by_cases h1 : (x0, y0) ∈ seen
      · rw [if_pos h1]
        exact ih rest seen g hg
      · rw [if_neg h1]
        by_cases h2 : ¬(0 ≤ x0 ∧ x0 < (w : ℤ) ∧ 0 ≤ y0 ∧ y0 < (h : ℤ))
        · rw [if_pos h2]
          exact ih rest seen g hg
        · rw [if_neg h2]
          by_cases h3 : (g x0 y0).2 ≠ Style.background
          · rw [if_pos h3]
            exact ih rest seen g hg
          · rw [if_neg h3]
            by_cases h4 : ¬ hasWaterBoundary g w h x0 y0 = true
            · rw [if_pos h4]
              exact ih rest seen g hg
            · rw [if_neg h4]
              exact ih _ _ _
                (floodInv_step g0 st g w h x0 y0 hg (not_ne_iff.mp h3)
                  (not_not.mp h4))

/-- C3 (amended): every cell changed by `_flood_fill_from_point` was
`map_background` in the pre-fill grid and ends as the fill glyph/style, and
in the POST-fill grid it has a 4-neighbour styled `map_water` or
`map_water_fill` — the neighbour may itself be a cell filled by this very
call (when the fill style is a water style), so the fill can advance beyond
cells adjacent to pre-fill water; non-background cells are never modified,
which is what keeps a fill seeded inside a closed water boundary from
crossing it. -/
theorem flood_fill_writes_amended (g : Grid) (w h : ℕ) (sx sy : ℤ)
    (st : Style) (fuel : ℕ) (x y : ℤ)
    (hch : floodFillFromPoint g w h sx sy st fuel x y ≠ g x y) :
    (g x y).2 = Style.background ∧
    floodFillFromPoint g w h sx sy st fuel x y = ('~', st) ∧
    ∃ d ∈ neighborOffsets,
      (floodFillFromPoint g w h sx sy st fuel (x + d.1) (y + d.2)).2 =
          Style.water ∨
      (floodFillFromPoint g w h sx sy st fuel (x + d.1) (y + d.2)).2 =
          Style.waterFill := by
  have hbase : FloodInv g st g := fun a b hne => absurd rfl hne
  have hres : FloodInv g st (floodFillFromPoint g w h sx sy st fuel) := by
    unfold floodFillFromPoint
    cases hs : (if (0 ≤ sx ∧ sx < (w : ℤ) ∧ 0 ≤ sy ∧ sy < (h : ℤ)) ∧
        (g sx sy).2 = Style.background then some (sx, sy)
      else findFillStart g w h (intRange 0 (h : ℤ)) sx sy) with
    | none => exact hbase
    | some p =>
      obtain ⟨x0, y0⟩ := p
      exact floodLoop_inv w h st g fuel [(x0, y0)] [] g hbase
  exact hres x y hch

/-- C3, counterexample: seeding the flood fill at (1,1), inside the closed
water ring, with the water-style fill `map_water_fill`, fills the centre cell
(2,2) even though none of its 4-neighbours carries a water style in the
pre-fill grid — the adjacency test reads the evolving grid, and freshly
filled `map_water_fill` cells satisfy it, so the fill advances beyond cells
adjacent to pre-fill water. -/
theorem flood_fill_prefill_adjacency_cex :
    (floodFillFromPoint ringGrid 5 5 1 1 Style.waterFill 100 2 2).2 =
      Style.waterFill ∧
    (ringGrid 2 2).2 = Style.background ∧
    (∀ d ∈ neighborOffsets,
      (ringGrid (2 + d.1) (2 + d.2)).2 ≠ Style.water ∧
      (ringGrid (2 + d.1) (2 + d.2)).2 ≠ Style.waterFill) := by
  decide

theorem flood_fill_writes_amended_witness :
    (ringGrid 2 1).2 = Style.background ∧
    floodFillFromPoint ringGrid 5 5 1 1 Style.waterFill 100 2 1 =
      ('~', Style.waterFill) ∧
    ∃ d ∈ neighborOffsets,
      (floodFillFromPoint ringGrid 5 5 1 1 Style.waterFill 100 (2 + d.1)
          (1 + d.2)).2 = Style.water ∨
      (floodFillFromPoint ringGrid 5 5 1 1 Style.waterFill 100 (2 + d.1)
          (1 + d.2)).2 = Style.waterFill :=
  flood_fill_writes_amended ringGrid 5 5 1 1 Style.waterFill 100 2 1 (by decide)

theorem updG_out {α : Type} (g : GridA α) (w h : ℕ) (x y a b : ℤ) (v : α)
    (hin : inViewport w h x y) (hout : ¬ inViewport w h a b) :
    updG g x y v a b = g a b := by
  refine updG_other g x y a b v ?_
  rintro ⟨rfl, rfl⟩
  exact hout hin

theorem rectFold_frame {α : Type} (w h : ℕ) (xs ys : List ℤ)
    (f : GridA α → ℤ → ℤ → GridA α)
    (hstep : ∀ (g : GridA α) (x y : ℤ), x ∈ xs → y ∈ ys →
      ∀ a b, ¬ inViewport w h a b → f g x y a b = g a b)
    (g : GridA α) (a b : ℤ) (hout : ¬ inViewport w h a b) :
    rectFold xs ys f g a b = g a b := by
  unfold rectFold
  refine foldl_invariant_mem (fun g2 => g2 a b = g a b) _ ys g rfl ?_
  intro t yy hyy ht
  have hrow := foldl_invariant_mem (fun g2 : GridA α => g2 a b = t a b)
    (fun acc2 x => f acc2 x yy) xs t rfl ?_
  · rw [hrow, ht]
  · intro t2 xx hxx ht2
    show f t2 xx yy a b = t a b
    rw [hstep t2 xx yy hxx hyy a b hout, ht2]

theorem fillArea_frame (g : Grid) (w h : ℕ) (poly : List (ℤ × ℤ)) (ch : Char)
    (st : Style) (a b : ℤ) (hout : ¬ inViewport w h a b) :
    fillArea g w h poly ch st a b = g a b := by
  unfold fillArea
  by_cases h3 : 3 ≤ poly.length
  · rw [if_pos h3]
    refine rectFold_frame w h _ _ _ ?_ g a b hout
    intro g2 x y _ _ a2 b2 hout2
    by_cases hy : y < 0 ∨ (h : ℤ) ≤ y
    · rw [if_pos hy]
    · rw [if_neg hy]
      by_cases hx : x < 0 ∨ (w : ℤ) ≤ x
      · rw [if_pos hx]
      · rw [if_neg hx]
        by_cases hp : pointInPolygon x y poly = true
        · rw [if_pos hp]
          exact updG_out g2 w h x y a2 b2 _ (by unfold inViewport; omega) hout2
        · rw [if_neg hp]
  · rw [if_neg h3]

theorem fillAreaFull_frame (g : Grid) (w h : ℕ) (poly : List (ℤ × ℤ))
    (ch : Char) (st : Style) (a b : ℤ) (hout : ¬ inViewport w h a b) :
    fillAreaFull g w h poly ch st a b = g a b := by
  unfold fillAreaFull
  by_cases h3 : 3 ≤ poly.length
  · rw [if_pos h3]
    refine rectFold_frame w h _ _ _ ?_ g a b hout
    intro g2 x y hx hy a2 b2 hout2
    rw [mem_intRange] at hx hy
    by_cases hp : pointInPolygon x y poly = true
    · rw [if_pos hp]
      exact updG_out g2 w h x y a2 b2 _ (by unfold inViewport; omega) hout2
    · rw [if_neg hp]
  · rw [if_neg h3]

theorem ite_fst_eq {σ τ : Type} (c : Prop) [inst : Decidable c] (z : σ)
    (p q : τ) : (if c then (z, p) else (z, q)).1 = z := by
  split_ifs <;> rfl

theorem bresenham_frame (g : Grid) (w h : ℕ) (px1 py1 px2 py2 : ℤ)
    (lc : Char) (st : Style) (a b : ℤ) (hout : ¬ inViewport w h a b) :
    bresenham g w h px1 py1 px2 py2 lc st a b = g a b := by
  unfold bresenham
  refine foldl_invariant_mem (fun s : Grid × ℤ × ℤ => s.1 a b = g a b)
    _ (intRange _ _) _ rfl ?_
  intro s xx _ hs
  rcases s with ⟨sg, sy, serr⟩
  dsimp only
  have hg2 : (if |px2 - px1| < |py2 - py1| then
      if 0 ≤ sy ∧ sy < (w : ℤ) ∧ 0 ≤ xx ∧ xx < (h : ℤ) then
        updG sg sy xx (lc, st) else sg
    else
      if 0 ≤ xx ∧ xx < (w : ℤ) ∧ 0 ≤ sy ∧ sy < (h : ℤ) then
        updG sg xx sy (lc, st) else sg) a b = g a b := by
    split_ifs with h1 h2 h3
    · rw [updG_out sg w h sy xx a b (lc, st) h2 hout]
      exact hs
    · exact hs
    · rw [updG_out sg w h xx sy a b (lc, st) h3 hout]
      exact hs
    · exact hs
  rw [ite_fst_eq]
  exact hg2

theorem drawLineSegment_frame (g : Grid) (w h : ℕ) (x1 y1 x2 y2 : ℤ)
    (ch : Char) (st : Style) (geo : Option (ℚ × ℚ × ℚ × ℚ)) (fuel : ℕ)
    (a b : ℤ) (hout : ¬ inViewport w h a b) :
    drawLineSegment g w h x1 y1 x2 y2 ch st geo fuel a b = g a b := by
  unfold drawLineSegment
  cases clipLoop w h fuel x1 y1 x2 y2 with
  | none => rfl
  | some q =>
    obtain ⟨p1, p2, p3, p4⟩ := q
    exact bresenham_frame g w h p1 p2 p3 p4 (lineChar ch geo) st a b hout

theorem drawPlaceLabel_frame (g : Grid) (w h : ℕ) (proj : Option (ℤ × ℤ))
    (name : List Char) (a b : ℤ) (hout : ¬ inViewport w h a b) :
    drawPlaceLabel g w h proj name a b = g a b := by
  unfold drawPlaceLabel
  cases proj with
  | none => rfl
  | some p =>
    obtain ⟨x, y⟩ := p
    dsimp only
    by_cases h1 : 0 ≤ x ∧ x < (w : ℤ) ∧ 0 ≤ y ∧ y < (h : ℤ)
    · rw [if_pos h1]
      by_cases h2 : max 0 (x - (name.length : ℤ) / 2) < (w : ℤ) ∧
          0 < min (w : ℤ) (max 0 (x - (name.length : ℤ) / 2) + (name.length : ℤ))
      · rw [if_pos h2]
        refine foldl_invariant_mem (fun g2 : Grid => g2 a b = g a b) _
          (List.range name.length) g rfl ?_
        intro t i _ ht
        dsimp only
        by_cases h3 : 0 ≤ max 0 (x - (name.length : ℤ) / 2) + (i : ℤ) ∧
            max 0 (x - (name.length : ℤ) / 2) + (i : ℤ) < (w : ℤ) ∧
            0 ≤ y ∧ y < (h : ℤ)
        · rw [if_pos h3]
          rw [updG_out t w h _ y a b _ h3 hout]
          exact ht
        · rw [if_neg h3]
          exact ht
      · rw [if_neg h2]
    · rw [if_neg h1]

theorem floodLoop_frame (w h : ℕ) (st : Style) (a b : ℤ)
    (hout : ¬ inViewport w h a b) :
    ∀ (fuel : ℕ) (q seen : List (ℤ × ℤ)) (g : Grid),
      floodLoop w h st fuel q seen g a b = g a b := by
  intro fuel
  induction fuel with
  | zero =>
    intro q seen g
    rw [floodLoop]
  | succ n ih =>
    intro q seen g
    cases q with
    | nil => rw [floodLoop]
    | cons p rest =>
      obtain ⟨x0, y0⟩ := p
      rw [floodLoop]
      by_cases h1 : (x0, y0) ∈ seen
      · rw [if_pos h1]
        exact ih rest seen g
      · rw [if_neg h1]
        by_cases h2 : ¬(0 ≤ x0 ∧ x0 < (w : ℤ) ∧ 0 ≤ y0 ∧ y0 < (h : ℤ))
        · rw [if_pos h2]
          exact ih rest seen g
        · rw [if_neg h2]
          by_cases h3 : (g x0 y0).2 ≠ Style.background
          · rw [if_pos h3]
            exact ih rest seen g
          · rw [if_neg h3]
            by_cases h4 : ¬ hasWaterBoundary g w h x0 y0 = true
            · rw [if_pos h4]
              exact ih rest seen g
            · rw [if_neg h4]
              rw [ih _ _ _]
              exact updG_out g w h x0 y0 a b _ (not_not.mp h2) hout

theorem floodFillFromPoint_frame (g : Grid) (w h : ℕ) (sx sy : ℤ)
    (st : Style) (fuel : ℕ) (a b : ℤ) (hout : ¬ inViewport w h a b) :
    floodFillFromPoint g w h sx sy st fuel a b = g a b := by
  unfold floodFillFromPoint
  cases hs : (if (0 ≤ sx ∧ sx < (w : ℤ) ∧ 0 ≤ sy ∧ sy < (h : ℤ)) ∧
      (g sx sy).2 = Style.background then some (sx, sy)
    else findFillStart g w h (intRange 0 (h : ℤ)) sx sy) with
  | none => rfl
  | some p =>
    obtain ⟨x0, y0⟩ := p
    exact floodLoop_frame w h st a b hout fuel [(x0, y0)] [] g

theorem renderGrid_frame (store : Grid) (radar : ℤ → ℤ → ℚ) (w h : ℕ)
    (a b : ℤ) (hout : ¬ inViewport w h a b) :
    renderGrid store radar w h a b = store a b := by
  rw [renderGrid_cell, if_neg hout]

/-- C5: none of the core grid operations — bounding-box polygon fill (used
for water fill and land cutout alike), full-viewport area fill, clipped line
drawing, label drawing, flood fill, compositing — ever writes a cell outside
[0,width)×[0,height): every out-of-viewport cell of the result equals the
input grid there, for all inputs. -/
theorem no_out_of_viewport_writes :
    (∀ (g : Grid) (w h : ℕ) (poly : List (ℤ × ℤ)) (ch : Char) (st : Style)
      (a b : ℤ), ¬ inViewport w h a b → fillArea g w h poly ch st a b = g a b) ∧
    (∀ (g : Grid) (w h : ℕ) (poly : List (ℤ × ℤ)) (ch : Char) (st : Style)
      (a b : ℤ), ¬ inViewport w h a b →
        fillAreaFull g w h poly ch st a b = g a b) ∧
    (∀ (g : Grid) (w h : ℕ) (x1 y1 x2 y2 : ℤ) (ch : Char) (st : Style)
      (geo : Option (ℚ × ℚ × ℚ × ℚ)) (fuel : ℕ) (a b : ℤ),
      ¬ inViewport w h a b →
        drawLineSegment g w h x1 y1 x2 y2 ch st geo fuel a b = g a b) ∧
    (∀ (g : Grid) (w h : ℕ) (proj : Option (ℤ × ℤ)) (name : List Char)
      (a b : ℤ), ¬ inViewport w h a b →
        drawPlaceLabel g w h proj name a b = g a b) ∧
    (∀ (g : Grid) (w h : ℕ) (sx sy : ℤ) (st : Style) (fuel : ℕ) (a b : ℤ),
      ¬ inViewport w h a b →
        floodFillFromPoint g w h sx sy st fuel a b = g a b) ∧
    (∀ (store : Grid) (radar : ℤ → ℤ → ℚ) (w h : ℕ) (a b : ℤ),
      ¬ inViewport w h a b → renderGrid store radar w h a b = store a b) :=
  ⟨fun g w h poly ch st a b hout => fillArea_frame g w h poly ch st a b hout,
   fun g w h poly ch st a b hout => fillAreaFull_frame g w h poly ch st a b hout,
   fun g w h x1 y1 x2 y2 ch st geo fuel a b hout =>
     drawLineSegment_frame g w h x1 y1 x2 y2 ch st geo fuel a b hout,
   fun g w h proj name a b hout => drawPlaceLabel_frame g w h proj name a b hout,
   fun g w h sx sy st fuel a b hout =>
     floodFillFromPoint_frame g w h sx sy st fuel a b hout,
   fun store radar w h a b hout => renderGrid_frame store radar w h a b hout⟩

theorem no_out_of_viewport_writes_witness :
    fillArea backgroundStore 2 2 [((0 : ℤ), (0 : ℤ)), (1, 0), (1, 1)] '~'
        Style.waterFill 5 5 = backgroundStore 5 5 ∧
    fillAreaFull backgroundStore 2 2 [((0 : ℤ), (0 : ℤ)), (1, 0), (1, 1)] 'O'
        Style.urban 5 5 = backgroundStore 5 5 ∧
    drawLineSegment backgroundStore 2 2 0 0 1 1 '-' Style.road none 8 5 5 =
        backgroundStore 5 5 ∧
    drawPlaceLabel backgroundStore 2 2 (some (1, 1)) ['A'] 5 5 =
        backgroundStore 5 5 ∧
    floodFillFromPoint backgroundStore 2 2 0 0 Style.waterFill 8 5 5 =
        backgroundStore 5 5 ∧
    renderGrid backgroundStore (fun _ _ => 1 / 2) 2 2 5 5 =
        backgroundStore 5 5 :=
  ⟨no_out_of_viewport_writes.1 backgroundStore 2 2 _ '~' Style.waterFill 5 5
     (by decide),
   no_out_of_viewport_writes.2.1 backgroundStore 2 2 _ 'O' Style.urban 5 5
     (by decide),
   no_out_of_viewport_writes.2.2.1 backgroundStore 2 2 0 0 1 1 '-' Style.road
     none 8 5 5 (by decide),
   no_out_of_viewport_writes.2.2.2.1 backgroundStore 2 2 (some (1, 1)) ['A']
     5 5 (by decide),
   no_out_of_viewport_writes.2.2.2.2.1 backgroundStore 2 2 0 0 Style.waterFill
     8 5 5 (by decide),
   no_out_of_viewport_writes.2.2.2.2.2 backgroundStore (fun _ _ => 1 / 2) 2 2
     5 5 (by decide)⟩
